import Mathlib

set_option maxRecDepth 8000
set_option maxHeartbeats 1000000

namespace PB

/-- JSON value tree: the model of the wire format handled by the external
serde_json library (only integer numerals and escape-free strings occur in the
payloads this client exchanges, so the model covers exactly those). -/
inductive Json where
  | null : Json
  | bool : Bool → Json
  | num : Int → Json
  | str : String → Json
  | arr : List Json → Json
  | obj : List (String × Json) → Json

/-- Whitespace test used by the JSON scanner. -/
def isWs (c : Char) : Bool :=
  c = ' ' || c = '\n' || c = '\t' || c = '\r'

/-- Drop leading JSON whitespace. -/
def skipWs : List Char → List Char
  | [] => []
  | c :: cs => if isWs c then skipWs cs else c :: cs

/-- Scan the remainder of a JSON string literal (the opening quote has already
been consumed); escape sequences are outside the modelled fragment. -/
def pString : List Char → Option (String × List Char)
  | [] => none
  | c :: cs =>
    if c = '"' then some ("", cs)
    else if c = '\\' then none
    else
      match pString cs with
      | some (s, rest) => some (String.mk (c :: s.data), rest)
      | none => none

/-- Accumulate a run of decimal digits. -/
def pDigitsAux : List Char → Nat → Nat × List Char
  | [], acc => (acc, [])
  | c :: cs, acc =>
    if c.isDigit then pDigitsAux cs (acc * 10 + (c.toNat - 48)) else (acc, c :: cs)

/-- Scan an integer numeral with optional leading minus sign. -/
def pNum : List Char → Option (Int × List Char)
  | [] => none
  | c :: cs =>
    if c = '-' then
      match cs with
      | d :: _ =>
        if d.isDigit then
          let r := pDigitsAux cs 0
          some (-(r.1 : Int), r.2)
        else none
      | [] => none
    else if c.isDigit then
      let r := pDigitsAux (c :: cs) 0
      some ((r.1 : Int), r.2)
    else none

/-- Match a literal keyword tail such as `rue` after `t`. -/
def pLit : List Char → List Char → Option (List Char)
  | [], rest => some rest
  | k :: ks, c :: cs => if c = k then pLit ks cs else none
  | _ :: _, [] => none

/-- Task selector for the fueled JSON scanner: parse one value, the items of an
array after `[`, or the fields of an object after the opening brace. -/
inductive PTask where
  | val : PTask
  | arrItems : PTask
  | objItems : PTask

/-- Fueled recursive-descent JSON reader (the model of serde_json's parser,
structurally recursive on the fuel so that it evaluates inside the kernel). -/
def pRun : Nat → PTask → List Char → Option (Json × List Char)
  | 0, _, _ => none
  | fuel + 1, .val, input =>
    match skipWs input with
    | [] => none
    | c :: cs =>
      if c = '"' then
        match pString cs with
        | some (s, rest) => some (Json.str s, rest)
        | none => none
      else if c = '\x7b' then
        match skipWs cs with
        | '\x7d' :: rest => some (Json.obj [], rest)
        | rest => pRun fuel .objItems rest
      else if c = '[' then
        match skipWs cs with
        | ']' :: rest => some (Json.arr [], rest)
        | rest => pRun fuel .arrItems rest
      else if c = 't' then
        match pLit ['r', 'u', 'e'] cs with
        | some rest => some (Json.bool true, rest)
        | none => none
      else if c = 'f' then
        match pLit ['a', 'l', 's', 'e'] cs with
        | some rest => some (Json.bool false, rest)
        | none => none
      else if c = 'n' then
        match pLit ['u', 'l', 'l'] cs with
        | some rest => some (Json.null, rest)
        | none => none
      else
        match pNum (c :: cs) with
        | some (n, rest) => some (Json.num n, rest)
        | none => none
  | fuel + 1, .arrItems, input =>
    match pRun fuel .val input with
    | none => none
    | some (j, rest) =>
      match skipWs rest with
      | ',' :: rest2 =>
        match pRun fuel .arrItems rest2 with
        | some (Json.arr js, rest3) => some (Json.arr (j :: js), rest3)
        | _ => none
      | ']' :: rest2 => some (Json.arr [j], rest2)
      | _ => none
  | fuel + 1, .objItems, input =>
    match skipWs input with
    | '"' :: cs =>
      match pString cs with
      | none => none
      | some (k, rest) =>
        match skipWs rest with
        | ':' :: rest2 =>
          match pRun fuel .val rest2 with
          | none => none
          | some (v, rest3) =>
            match skipWs rest3 with
            | ',' :: rest4 =>
              match pRun fuel .objItems rest4 with
              | some (Json.obj fs, rest5) => some (Json.obj ((k, v) :: fs), rest5)
              | _ => none
            | '\x7d' :: rest4 => some (Json.obj [(k, v)], rest4)
            | _ => none
        | _ => none
    | _ => none

/-- Parse a whole JSON document from a string (the interface of
serde_json::Deserializer::from_str); `none` models a syntax error. -/
def parseJson (s : String) : Option Json :=
  match pRun (s.length + 1) .val s.data with
  | some (j, rest) => if (skipWs rest).isEmpty then some j else none
  | none => none

/-- Total UTF-8 byte length of a character list, as Rust's `str::len` counts. -/
def byteLenAux : List Char → Nat
  | [] => 0
  | c :: cs => c.utf8Size + byteLenAux cs

/-- UTF-8 byte length of a string (Rust `body.len()`). -/
def byteLenStr (s : String) : Nat := byteLenAux s.data

/-- Take the prefix of a character list spanning exactly `n` UTF-8 bytes.
Returns `none` when `n` does not land on a character boundary: this is the
case in which Rust's byte slicing `&body[..n]` panics. -/
def takeBytesAux : List Char → Nat → Option (List Char)
  | _, 0 => some []
  | [], _ + 1 => none
  | c :: cs, n + 1 =>
    if n + 1 < c.utf8Size then none
    else
      match takeBytesAux cs (n + 1 - c.utf8Size) with
      | some r => some (c :: r)
      | none => none

/-- The diagnostic snippet `&body[..min(2000, body.len())]` computed by the
records list and record view calls; `none` models a slicing panic at a
non-boundary byte offset. -/
def bodySnippet (body : String) : Option String :=
  match takeBytesAux body.data (min 2000 (byteLenStr body)) with
  | some cs => some (String.mk cs)
  | none => none

/-- Human-readable kind of a JSON value, used in the decode-failure
descriptions produced by the modelled serde decoders. -/
def typeName : Json → String
  | .null => "null"
  | .bool _ => "boolean"
  | .num _ => "integer"
  | .str _ => "string"
  | .arr _ => "a sequence"
  | .obj _ => "a map"

/-- Look up a field of a decoded JSON object by key (serde matches keys and,
by default, ignores the fields a struct does not declare). -/
def findField (fs : List (String × Json)) (k : String) : Option Json :=
  match fs.find? (fun f => f.1 == k) with
  | some f => some f.2
  | none => none

/-- Compose a structural decode path with the path of a nested failure, in the
rendering serde_path_to_error uses: field segments joined by dots, array
indices appended as bracketed offsets. -/
def joinPath (parent child : String) : String :=
  if child = "" then parent else parent ++ "." ++ child

/-- Render a finished decode path; the root path is shown as a dot. -/
def renderPath (p : String) : String :=
  if p = "" then "." else p

/-- Decode a required string field; failures carry the relative path and the
serde-style description. -/
def jGetStr (fs : List (String × Json)) (k : String) : Except (String × String) String :=
  match findField fs k with
  | none => .error ("", "missing field `" ++ k ++ "`")
  | some (.str s) => .ok s
  | some v => .error (k, "invalid type: " ++ typeName v ++ ", expected a string")

/-- Decode a required boolean field. -/
def jGetBool (fs : List (String × Json)) (k : String) : Except (String × String) Bool :=
  match findField fs k with
  | none => .error ("", "missing field `" ++ k ++ "`")
  | some (.bool b) => .ok b
  | some v => .error (k, "invalid type: " ++ typeName v ++ ", expected a boolean")

/-- Decode a required integer field (the i32 fields of the wire types). -/
def jGetInt (fs : List (String × Json)) (k : String) : Except (String × String) Int :=
  match findField fs k with
  | none => .error ("", "missing field `" ++ k ++ "`")
  | some (.num n) => .ok n
  | some v => .error (k, "invalid type: " ++ typeName v ++ ", expected an integer")

/-- Decode an optional string field (serde's Option: absent or null is none). -/
def jGetOptStr (fs : List (String × Json)) (k : String) : Except (String × String) (Option String) :=
  match findField fs k with
  | none => .ok none
  | some .null => .ok none
  | some (.str s) => .ok (some s)
  | some v => .error (k, "invalid type: " ++ typeName v ++ ", expected a string")

/-- Decode the elements of a JSON array, tracking the index of the element at
which decoding diverged so failures surface paths like `items[2].created`. -/
def decodeArr {α : Type} (dec : Json → Except (String × String) α) (baseKey : String) :
    Nat → List Json → Except (String × String) (List α)
  | _, [] => .ok []
  | i, j :: rest =>
    match dec j with
    | .error (p, d) => .error (joinPath (baseKey ++ "[" ++ toString i ++ "]") p, d)
    | .ok a =>
      match decodeArr dec baseKey (i + 1) rest with
      | .error e => .error e
      | .ok as => .ok (a :: as)

/-- Concrete record payload used to instantiate the generic item type `T` of
the records endpoints: an `id` and a `created` timestamp string, the shape the
spec's decode-path example uses. -/
structure RecordData where
  id : String
  created : String
deriving DecidableEq

/-- Paginated list envelope returned by the list endpoints
(serde renames to camelCase on the wire: `perPage`, `totalItems`). -/
structure RecordList (T : Type) where
  page : Int
  per_page : Int
  total_items : Int
  items : List T
deriving DecidableEq

/-- Decode one record item, with relative decode paths. -/
def decodeRecordData (j : Json) : Except (String × String) RecordData :=
  match j with
  | .obj fs => do
    let id ← jGetStr fs "id"
    let created ← jGetStr fs "created"
    .ok ⟨id, created⟩
  | v => .error ("", "invalid type: " ++ typeName v ++ ", expected struct RecordData")

/-- Decode a `RecordList<RecordData>` body, with relative decode paths. -/
def decodeRecordList (j : Json) : Except (String × String) (RecordList RecordData) :=
  match j with
  | .obj fs => do
    let page ← jGetInt fs "page"
    let perPage ← jGetInt fs "perPage"
    let totalItems ← jGetInt fs "totalItems"
    match findField fs "items" with
    | none => .error ("", "missing field `items`")
    | some (.arr xs) => do
      let items ← decodeArr decodeRecordData "items" 0 xs
      .ok ⟨page, perPage, totalItems, items⟩
    | some v => .error ("items", "invalid type: " ++ typeName v ++ ", expected a sequence")
  | v => .error ("", "invalid type: " ++ typeName v ++ ", expected struct RecordList")

/-- Model of `serde_path_to_error::deserialize` applied to a records list body:
parse, decode, and render the structural path of the failure. -/
def parseThenDecodeRL (body : String) : Except (String × String) (RecordList RecordData) :=
  match parseJson body with
  | none => .error (".", "syntax error")
  | some j =>
    match decodeRecordList j with
    | .ok v => .ok v
    | .error (p, d) => .error (renderPath p, d)

/-- Model of `serde_path_to_error::deserialize` applied to a single-record
view body. -/
def parseThenDecodeRecord (body : String) : Except (String × String) RecordData :=
  match parseJson body with
  | none => .error (".", "syntax error")
  | some j =>
    match decodeRecordData j with
    | .ok v => .ok v
    | .error (p, d) => .error (renderPath p, d)

/-- Schema field of a collection (collections.rs `Field`). -/
structure SchemaField where
  system : Bool
  id : String
  name : String
  type : String
  required : Bool
  unique : Bool
deriving DecidableEq

/-- Collection metadata (collections.rs `Collection`); the chrono timestamps
are modelled at the interface as their RFC3339 wire strings. -/
structure Collection where
  id : String
  created : String
  type : String
  updated : String
  name : String
  schema : List SchemaField
deriving DecidableEq

/-- Paginated collection list (collections.rs `CollectionList`). -/
structure CollectionList where
  page : Int
  per_page : Int
  total_items : Int
  items : List Collection
deriving DecidableEq

/-- Decode one schema field. -/
def decodeSchemaField (j : Json) : Except (String × String) SchemaField :=
  match j with
  | .obj fs => do
    let system ← jGetBool fs "system"
    let id ← jGetStr fs "id"
    let name ← jGetStr fs "name"
    let ty ← jGetStr fs "type"
    let required ← jGetBool fs "required"
    let unique ← jGetBool fs "unique"
    .ok ⟨system, id, name, ty, required, unique⟩
  | v => .error ("", "invalid type: " ++ typeName v ++ ", expected struct Field")

/-- Decode one collection. -/
def decodeCollection (j : Json) : Except (String × String) Collection :=
  match j with
  | .obj fs => do
    let id ← jGetStr fs "id"
    let created ← jGetStr fs "created"
    let ty ← jGetStr fs "type"
    let updated ← jGetStr fs "updated"
    let name ← jGetStr fs "name"
    match findField fs "schema" with
    | none => .error ("", "missing field `schema`")
    | some (.arr xs) => do
      let schema ← decodeArr decodeSchemaField "schema" 0 xs
      .ok ⟨id, created, ty, updated, name, schema⟩
    | some v => .error ("schema", "invalid type: " ++ typeName v ++ ", expected a sequence")
  | v => .error ("", "invalid type: " ++ typeName v ++ ", expected struct Collection")

/-- Decode a `CollectionList` body. -/
def decodeCollectionList (j : Json) : Except (String × String) CollectionList :=
  match j with
  | .obj fs => do
    let page ← jGetInt fs "page"
    let perPage ← jGetInt fs "perPage"
    let totalItems ← jGetInt fs "totalItems"
    match findField fs "items" with
    | none => .error ("", "missing field `items`")
    | some (.arr xs) => do
      let items ← decodeArr decodeCollection "items" 0 xs
      .ok ⟨page, perPage, totalItems, items⟩
    | some v => .error ("items", "invalid type: " ++ typeName v ++ ", expected a sequence")
  | v => .error ("", "invalid type: " ++ typeName v ++ ", expected struct CollectionList")

/-- Model of reqwest's `Response::json::<CollectionList>()`: same serde decode,
but the surfaced error is only the description, with no structural path (the
collections list call does not use serde_path_to_error). -/
def parseThenDecodeCollectionListPlain (body : String) : Except String CollectionList :=
  match parseJson body with
  | none => .error "syntax error"
  | some j =>
    match decodeCollectionList j with
    | .ok v => .ok v
    | .error (_, d) => .error d

/-- One data point of the log statistics endpoint (logs.rs `LogStatDataPoint`). -/
structure LogStatDataPoint where
  total : Int
  date : String
deriving DecidableEq

/-- Decode one log statistics point. -/
def decodeStatPoint (j : Json) : Except (String × String) LogStatDataPoint :=
  match j with
  | .obj fs => do
    let total ← jGetInt fs "total"
    let date ← jGetStr fs "date"
    .ok ⟨total, date⟩
  | v => .error ("", "invalid type: " ++ typeName v ++ ", expected struct LogStatDataPoint")

/-- Model of `Response::json::<Vec<LogStatDataPoint>>()` (plain, no path). -/
def parseThenDecodeStatsPlain (body : String) : Except String (List LogStatDataPoint) :=
  match parseJson body with
  | none => .error "syntax error"
  | some (.arr xs) =>
    match decodeArr decodeStatPoint "" 0 xs with
    | .ok v => .ok v
    | .error (_, d) => .error d
  | some v => .error ("invalid type: " ++ typeName v ++ ", expected a sequence")

/-- Creation acknowledgment returned by record create/update
(records.rs `CreateResponse`). -/
structure CreateResponse where
  collection_name : Option String
  collection_id : Option String
  id : String
  updated : String
  created : String
deriving DecidableEq

/-- Decode a `CreateResponse` (plain, no path: create and update use
reqwest's `json()`). -/
def parseThenDecodeCreateRespPlain (body : String) : Except String CreateResponse :=
  match parseJson body with
  | none => .error "syntax error"
  | some (.obj fs) =>
    match (do
      let cn ← jGetOptStr fs "@collectionName"
      let ci ← jGetOptStr fs "@collectionId"
      let id ← jGetStr fs "id"
      let updated ← jGetStr fs "updated"
      let created ← jGetStr fs "created"
      Except.ok (⟨cn, ci, id, updated, created⟩ : CreateResponse)) with
    | .ok v => .ok v
    | .error (_, d) => .error d
  | some v => .error ("invalid type: " ++ typeName v ++ ", expected struct CreateResponse")

/-- One field-level validation failure (client.rs `ValidationError`). -/
structure ValidationError where
  code : String
  message : String
deriving DecidableEq

/-- Structured 4xx validation payload (client.rs `ErrorResponse`); the
`data` HashMap is modelled as an association list in wire order. -/
structure ErrorResponse where
  data : List (String × ValidationError)
  message : String
  status : Int
deriving DecidableEq

/-- Decode the `data` map of an `ErrorResponse`. -/
def decodeDataMap : List (String × Json) → Except (String × String) (List (String × ValidationError))
  | [] => .ok []
  | (k, v) :: rest =>
    match v with
    | .obj vfs =>
      match (do
        let code ← jGetStr vfs "code"
        let message ← jGetStr vfs "message"
        Except.ok (⟨code, message⟩ : ValidationError)) with
      | .error (p, d) => .error (joinPath k p, d)
      | .ok ve =>
        match decodeDataMap rest with
        | .error e => .error e
        | .ok ps => .ok ((k, ve) :: ps)
    | w => .error (k, "invalid type: " ++ typeName w ++ ", expected struct ValidationError")

/-- Decode an `ErrorResponse` body (plain: the auth path uses `json()`). -/
def parseThenDecodeErrorRespPlain (body : String) : Except String ErrorResponse :=
  match parseJson body with
  | none => .error "syntax error"
  | some (.obj fs) =>
    match (do
      let dm ←
        match findField fs "data" with
        | none => Except.error ("", "missing field `data`")
        | some (.obj dfs) => decodeDataMap dfs
        | some v => Except.error ("data", "invalid type: " ++ typeName v ++ ", expected a map")
      let message ← jGetStr fs "message"
      let status ← jGetInt fs "status"
      Except.ok (⟨dm, message, status⟩ : ErrorResponse)) with
    | .ok v => .ok v
    | .error (_, d) => .error d
  | some v => .error ("invalid type: " ++ typeName v ++ ", expected struct ErrorResponse")

/-- Decode the `\x7btoken: string\x7d` body of a successful authentication
(client.rs `AuthSuccessResponse`, via `json()`). -/
def parseThenDecodeAuthSuccessPlain (body : String) : Except String String :=
  match parseJson body with
  | none => .error "syntax error"
  | some (.obj fs) =>
    match jGetStr fs "token" with
    | .ok t => .ok t
    | .error (_, d) => .error d
  | some v => .error ("invalid type: " ++ typeName v ++ ", expected struct AuthSuccessResponse")

/-- Typestate marker of a client that has not authenticated (client.rs `NoAuth`). -/
inductive NoAuth where
  | mk : NoAuth
deriving DecidableEq

/-- Typestate marker of an authenticated client (client.rs `Auth`). -/
inductive Auth where
  | mk : Auth
deriving DecidableEq

/-- The client (client.rs `Client<State>`): base URL, optional raw token, and
a typestate parameter distinguishing anonymous from authenticated values. -/
structure Client (State : Type) where
  base_url : String
  auth_token : Option String
  state : State

/-- HTTP method of an outbound request. -/
inductive Method where
  | GET : Method
  | POST : Method
  | PATCH : Method
  | DELETE : Method
deriving DecidableEq

/-- Outbound request handed to the transport adapter: the observable effect of
the Httpc constructors (headers in the order reqwest's builder adds them). -/
structure Request where
  method : Method
  url : String
  headers : List (String × String)
  query : List (String × String)
  body : Option String
deriving DecidableEq

/-- Raw transport response: status code and body text. -/
structure Response where
  status : Nat
  body : String
deriving DecidableEq

/-- Rust `StatusCode::is_success()`: the 2xx range. -/
def statusIsSuccess (s : Nat) : Bool :=
  decide (200 ≤ s) && decide (s < 300)

/-- Httpc::attach_auth_info: append the raw `Authorization` header exactly
when the client holds a token (httpc.rs, the single point of token handling). -/
def attach_auth_info {A : Type} (headers : List (String × String)) (client : Client A) :
    List (String × String) :=
  match client.auth_token with
  | some token => headers ++ [("Authorization", token)]
  | none => headers

/-- Httpc::get. -/
def Httpc.get {A : Type} (client : Client A) (url : String)
    (query_params : Option (List (String × String))) : Request :=
  { method := .GET
    url := url
    headers := attach_auth_info [] client
    query := query_params.getD []
    body := none }

/-- Httpc::post (adds `Content-Type: application/json` before the auth header,
as the source's builder chain does). -/
def Httpc.post {A : Type} (client : Client A) (url : String) (body_content : String) : Request :=
  { method := .POST
    url := url
    headers := attach_auth_info [("Content-Type", "application/json")] client
    query := []
    body := some body_content }

/-- Httpc::delete. -/
def Httpc.delete {A : Type} (client : Client A) (url : String) : Request :=
  { method := .DELETE
    url := url
    headers := attach_auth_info [] client
    query := []
    body := none }

/-- Httpc::patch. -/
def Httpc.patch {A : Type} (client : Client A) (url : String) (body_content : String) : Request :=
  { method := .PATCH
    url := url
    headers := attach_auth_info [("Content-Type", "application/json")] client
    query := []
    body := some body_content }

/-- Authentication failure envelope (client.rs `AuthError`). -/
inductive AuthError where
  | Validation : ErrorResponse → AuthError
  | Other : String → AuthError
deriving DecidableEq

/-- Client::<NoAuth>::auth_with_password, from the transport outcome of the
`POST \x2e\x2e\x2e/auth-with-password` exchange onwards: 200 parses the token and
builds a fresh `Client Auth` from the unchanged original's fields; 4xx decodes
the body as `ErrorResponse` (an undecodable body escalates to `Other` through
the `?` conversion); any other status reports `Other` with the body text. A
transport failure is converted by `From<reqwest::Error>` into `Other`. -/
def auth_with_password (c : Client NoAuth) (tr : Except String Response) :
    Except AuthError (Client Auth) :=
  match tr with
  | .error e => .error (.Other e)
  | .ok resp =>
    if resp.status = 200 then
      match parseThenDecodeAuthSuccessPlain resp.body with
      | .ok token => .ok { base_url := c.base_url, auth_token := some token, state := Auth.mk }
      | .error d => .error (.Other d)
    else if 400 ≤ resp.status ∧ resp.status ≤ 499 then
      match parseThenDecodeErrorRespPlain resp.body with
      | .ok er => .error (.Validation er)
      | .error d => .error (.Other d)
    else
      .error (.Other ("Unexpected status " ++ toString resp.status ++ " with body: " ++ resp.body))

/-- Records list builder (records.rs `RecordsListRequestBuilder`). -/
structure RecordsListRequestBuilder (A : Type) where
  client : Client A
  collection_name : String
  filter : Option String
  sort : Option String
  expand : Option String
  page : Int
  per_page : Int

/-- Setter `filter` of the records list builder (named `setFilter` here only
because the Lean projection already owns the field's name). -/
def RecordsListRequestBuilder.setFilter {A : Type} (b : RecordsListRequestBuilder A)
    (filter_opts : String) : RecordsListRequestBuilder A :=
  { b with filter := some filter_opts }

/-- Setter `sort` of the records list builder. -/
def RecordsListRequestBuilder.setSort {A : Type} (b : RecordsListRequestBuilder A)
    (sort_opts : String) : RecordsListRequestBuilder A :=
  { b with sort := some sort_opts }

/-- Setter `expand` of the records list builder. -/
def RecordsListRequestBuilder.setExpand {A : Type} (b : RecordsListRequestBuilder A)
    (expand_opts : String) : RecordsListRequestBuilder A :=
  { b with expand := some expand_opts }

/-- Setter `page` of the records list builder. -/
def RecordsListRequestBuilder.setPage {A : Type} (b : RecordsListRequestBuilder A)
    (page : Int) : RecordsListRequestBuilder A :=
  { b with page := page }

/-- Setter `per_page` of the records list builder. -/
def RecordsListRequestBuilder.setPerPage {A : Type} (b : RecordsListRequestBuilder A)
    (per_page : Int) : RecordsListRequestBuilder A :=
  { b with per_page := per_page }

/-- Typed failure of the records list call; the source reports these as
formatted anyhow messages, modelled here by their distinct construction sites. -/
inductive ListCallError where
  | transport : String → ListCallError
  | http : Nat → String → String → ListCallError
  | decode : String → String → String → ListCallError
deriving DecidableEq

/-- RecordsListRequestBuilder::call, from the transport outcome onwards:
non-2xx statuses report an HTTP failure with a body snippet, 2xx bodies go
through the path-tracking decoder; `none` models the snippet-slicing panic. -/
def RecordsListRequestBuilder.call {A : Type} (b : RecordsListRequestBuilder A)
    (tr : Except String Response) : Option (Except ListCallError (RecordList RecordData)) :=
  let url := b.client.base_url ++ "/api/collections/" ++ b.collection_name ++ "/records"
  match tr with
  | .error e => some (.error (.transport ("GET " ++ url ++ " failed to execute: " ++ e)))
  | .ok resp =>
    if statusIsSuccess resp.status then
      match parseThenDecodeRL resp.body with
      | .ok parsed => some (.ok parsed)
      | .error (p, d) =>
        match bodySnippet resp.body with
        | none => none
        | some snip => some (.error (.decode p d snip))
    else
      match bodySnippet resp.body with
      | none => none
      | some snip => some (.error (.http resp.status url snip))

/-- Record view builder (records.rs `RecordViewRequestBuilder`). -/
structure RecordViewRequestBuilder (A : Type) where
  client : Client A
  collection_name : String
  identifier : String

/-- Typed failure of a record view call (error.rs `RecordViewError`); the
serde source of a decode failure is modelled by its description string. -/
inductive RecordViewError where
  | NotFound : String → String → String → RecordViewError
  | Http : Nat → String → String → RecordViewError
  | Decode : String → String → String → RecordViewError
  | Transport : String → RecordViewError
deriving DecidableEq

/-- RecordViewRequestBuilder::call, from the transport outcome onwards: 404
maps to NotFound with collection, identifier and snippet; other non-2xx to
Http with status, URL and snippet; 2xx decode failures to Decode with the
structural path; `none` models the snippet-slicing panic. -/
def RecordViewRequestBuilder.call {A : Type} (b : RecordViewRequestBuilder A)
    (tr : Except String Response) : Option (Except RecordViewError RecordData) :=
  let url := b.client.base_url ++ "/api/collections/" ++ b.collection_name ++ "/records/" ++
    b.identifier
  match tr with
  | .error e => some (.error (.Transport ("GET " ++ url ++ " failed to execute: " ++ e)))
  | .ok resp =>
    if statusIsSuccess resp.status then
      match parseThenDecodeRecord resp.body with
      | .ok parsed => some (.ok parsed)
      | .error (p, d) =>
        match bodySnippet resp.body with
        | none => none
        | some snip => some (.error (.Decode p d snip))
    else
      match bodySnippet resp.body with
      | none => none
      | some snip =>
        if resp.status = 404 then
          some (.error (.NotFound b.collection_name b.identifier snip))
        else
          some (.error (.Http resp.status url snip))

/-- Record destroy builder (records.rs `RecordDestroyRequestBuilder`). -/
structure RecordDestroyRequestBuilder (A : Type) where
  identifier : String
  client : Client A
  collection_name : String

/-- RecordDestroyRequestBuilder::call, from the transport outcome onwards:
success exactly on status 204, any other status fails, a transport failure is
wrapped. -/
def RecordDestroyRequestBuilder.call {A : Type} (_b : RecordDestroyRequestBuilder A)
    (tr : Except String Response) : Except String Unit :=
  match tr with
  | .ok resp => if resp.status = 204 then .ok () else .error "Failed to delete"
  | .error e => .error ("error: " ++ e)

/-- Record update builder (records.rs `RecordUpdateRequestBuilder`). -/
structure RecordUpdateRequestBuilder (A T : Type) where
  record : T
  collection_name : String
  client : Client A
  id : String

/-- RecordUpdateRequestBuilder::call, from the transport outcome onwards: the
response body is decoded as a `CreateResponse` purely as a success check and
then discarded — the caller's own record is echoed back. The status code is
never inspected. -/
def RecordUpdateRequestBuilder.call {A T : Type} (b : RecordUpdateRequestBuilder A T)
    (tr : Except String Response) : Except String T :=
  match tr with
  | .error e => .error ("error: " ++ e)
  | .ok resp =>
    match parseThenDecodeCreateRespPlain resp.body with
    | .ok _ => .ok b.record
    | .error d => .error d

/-- Collection list builder (collections.rs `CollectionListRequestBuilder`). -/
structure CollectionListRequestBuilder (A : Type) where
  client : Client A
  filter : Option String
  sort : Option String
  expand : Option String
  per_page : Int
  page : Int

/-- Setter `filter` of the collection list builder. -/
def CollectionListRequestBuilder.setFilter {A : Type} (b : CollectionListRequestBuilder A)
    (filter_opts : String) : CollectionListRequestBuilder A :=
  { b with filter := some filter_opts }

/-- Setter `per_page` of the collection list builder. -/
def CollectionListRequestBuilder.setPerPage {A : Type} (b : CollectionListRequestBuilder A)
    (per_page_count : Int) : CollectionListRequestBuilder A :=
  { b with per_page := per_page_count }

/-- Setter `page` of the collection list builder. -/
def CollectionListRequestBuilder.setPage {A : Type} (b : CollectionListRequestBuilder A)
    (page_count : Int) : CollectionListRequestBuilder A :=
  { b with page := page_count }

/-- Setter `sort` of the collection list builder. -/
def CollectionListRequestBuilder.setSort {A : Type} (b : CollectionListRequestBuilder A)
    (sort_opts : String) : CollectionListRequestBuilder A :=
  { b with sort := some sort_opts }

/-- Setter `expand` of the collection list builder. -/
def CollectionListRequestBuilder.setExpand {A : Type} (b : CollectionListRequestBuilder A)
    (expand_opts : String) : CollectionListRequestBuilder A :=
  { b with expand := some expand_opts }

/-- Typed failure of the collection list call: a transport failure or the
plain (path-free) reqwest decode failure — the source propagates both as
anyhow errors and never inspects the status code. -/
inductive CollectionsListError where
  | transport : String → CollectionsListError
  | decode : String → CollectionsListError
deriving DecidableEq

/-- CollectionListRequestBuilder::call, from the transport outcome onwards:
no status check; the body is decoded with reqwest's `json()` whose failure
carries no structural path. -/
def CollectionListRequestBuilder.call {A : Type} (_b : CollectionListRequestBuilder A)
    (tr : Except String Response) : Except CollectionsListError CollectionList :=
  match tr with
  | .error e => .error (.transport e)
  | .ok resp =>
    match parseThenDecodeCollectionListPlain resp.body with
    | .ok v => .ok v
    | .error d => .error (.decode d)

/-- Log list builder (logs.rs `LogListRequestBuilder`). -/
structure LogListRequestBuilder (A : Type) where
  client : Client A
  page : Int
  per_page : Int
  sort : Option String
  filter : Option String

/-- Setter `page` of the log list builder. -/
def LogListRequestBuilder.setPage {A : Type} (b : LogListRequestBuilder A)
    (page_count : Int) : LogListRequestBuilder A :=
  { b with page := page_count }

/-- Setter `per_page` of the log list builder. -/
def LogListRequestBuilder.setPerPage {A : Type} (b : LogListRequestBuilder A)
    (per_page_count : Int) : LogListRequestBuilder A :=
  { b with per_page := per_page_count }

/-- Setter `filter` of the log list builder. -/
def LogListRequestBuilder.setFilter {A : Type} (b : LogListRequestBuilder A)
    (filter_opts : String) : LogListRequestBuilder A :=
  { b with filter := some filter_opts }

/-- Setter `sort` of the log list builder. -/
def LogListRequestBuilder.setSort {A : Type} (b : LogListRequestBuilder A)
    (sort_opts : String) : LogListRequestBuilder A :=
  { b with sort := some sort_opts }

/-- Log statistics builder (logs.rs `LogStatisticsRequestBuilder`). -/
structure LogStatisticsRequestBuilder (A : Type) where
  client : Client A
  filter : Option String

/-- Setter `filter` of the log statistics builder. -/
def LogStatisticsRequestBuilder.setFilter {A : Type} (b : LogStatisticsRequestBuilder A)
    (filter_query : String) : LogStatisticsRequestBuilder A :=
  { b with filter := some filter_query }

/-- LogStatisticsRequestBuilder::call, from the transport outcome onwards:
no status check; the body is decoded with reqwest's `json()`. -/
def LogStatisticsRequestBuilder.call {A : Type} (_b : LogStatisticsRequestBuilder A)
    (tr : Except String Response) : Except CollectionsListError (List LogStatDataPoint) :=
  match tr with
  | .error e => .error (.transport e)
  | .ok resp =>
    match parseThenDecodeStatsPlain resp.body with
    | .ok v => .ok v
    | .error d => .error (.decode d)

/-- Records manager (records.rs `RecordsManager`). -/
structure RecordsManager (A : Type) where
  client : Client A
  name : String

/-- RecordsManager::list — the builder factory with the documented defaults. -/
def RecordsManager.list {A : Type} (m : RecordsManager A) : RecordsListRequestBuilder A :=
  { client := m.client
    collection_name := m.name
    filter := none
    sort := none
    expand := none
    page := 1
    per_page := 100 }

/-- Rust's `as usize` cast of an i32 (sign extension then reinterpretation),
applied by the auto-pagination loop to the server-reported `total_items`. -/
def i32AsUsize (x : Int) : Nat :=
  (x % (2 : Int) ^ 64).toNat

/-- Outcome of a run of the auto-pagination loop. -/
inductive GetAllOut (E T : Type) where
  | fuelOut : GetAllOut E T
  | crash : GetAllOut E T
  | failed : E → GetAllOut E T
  | ok : List T → GetAllOut E T
deriving DecidableEq

/-- The auto-pagination loop shared (by duplication in the source) between
RecordsManager::get_all and RecordsListRequestBuilder::get_all: starting at
page 1 it accumulates the items of each fetched page and stops once the
running count equals the page's reported `total_items` cast to usize. `fetch`
models one `self.list().page(p).per_page(1000).call()` round trip; the fuel
bounds the iterations (the source loop has no bound and can diverge), and the
returned number counts the page fetches issued. -/
def getAllLoop {E T : Type} (fetch : Nat → Option (Except E (RecordList T))) :
    Nat → List T → Nat → GetAllOut E T × Nat
  | _, _, 0 => (.fuelOut, 0)
  | page, acc, fuel + 1 =>
    match fetch page with
    | none => (.crash, 1)
    | some (.error e) => (.failed e, 1)
    | some (.ok resp) =>
      let acc2 := acc ++ resp.items
      if acc2.length = i32AsUsize resp.total_items then (.ok acc2, 1)
      else
        let r := getAllLoop fetch (page + 1) acc2 fuel
        (r.1, r.2 + 1)

/-- RecordsManager::get_all: run the auto-pagination loop from page 1 with an
empty accumulator. -/
def RecordsManager.get_all {A E T : Type} (_m : RecordsManager A)
    (fetch : Nat → Option (Except E (RecordList T))) (fuel : Nat) : GetAllOut E T × Nat :=
  getAllLoop fetch 1 [] fuel

/-- Concatenation of `k` consecutive server pages starting at `page`, in
server-returned order. -/
def pagesConcat {T : Type} (items : Nat → List T) (page : Nat) : Nat → List T
  | 0 => []
  | k + 1 => items page ++ pagesConcat items (page + 1) k

/-- Ceiling division on naturals, the page count `ceil(m / p)` of the claims. -/
def ceilDiv (m p : Nat) : Nat :=
  (m + p - 1) / p

lemma ceilDiv_pos {m p : Nat} (hm : 0 < m) (hp : 0 < p) : 0 < ceilDiv m p := by
  rw [ceilDiv]
  exact (Nat.one_le_div_iff hp).mpr (by omega)

lemma ceilDiv_eq_one {m p : Nat} (hm : 0 < m) (hmp : m ≤ p) : ceilDiv m p = 1 := by
  rw [ceilDiv]
  have hp : 0 < p := lt_of_lt_of_le hm hmp
  have h1 : 1 * p ≤ m + p - 1 := by omega
  have h2 : m + p - 1 < (1 + 1) * p := by omega
  exact Nat.div_eq_of_lt_le h1 h2

lemma ceilDiv_sub {m p : Nat} (hp : 0 < p) (hmp : p < m) :
    ceilDiv m p = ceilDiv (m - p) p + 1 := by
  rw [ceilDiv, ceilDiv]
  have h1 : m + p - 1 = (m - p + p - 1) + p := by omega
  rw [h1, Nat.add_div_right _ hp]

lemma i32AsUsize_ofNat {n : Nat} (h : n < 2 ^ 64) : i32AsUsize (n : Int) = n := by
  rw [i32AsUsize, Int.emod_eq_of_lt (by positivity) (by exact_mod_cast h)]
  simp

lemma getAllLoop_consistent {E T : Type} {N P : Nat} (pages : Nat → RecordList T)
    (hN : N < 2 ^ 64) (hP : 0 < P) :
    ∀ fuel page acc (M : Nat), 0 < M → acc.length + M = N →
      (∀ j : Nat, (pages (page + j)).total_items = (N : Int)) →
      (∀ j : Nat, (pages (page + j)).items.length = min P (M - j * P)) →
      ceilDiv M P ≤ fuel →
      getAllLoop (E := E) (fun i => some (.ok (pages i))) page acc fuel
          = (.ok (acc ++ pagesConcat (fun i => (pages i).items) page (ceilDiv M P)), ceilDiv M P)
        ∧ (acc ++ pagesConcat (fun i => (pages i).items) page (ceilDiv M P)).length = N := by
  intro fuel
  induction fuel with
  | zero =>
    intro page acc M hM _ _ _ hfuel
    exact absurd hfuel (by have := ceilDiv_pos hM hP; omega)
  | succ fuel ih =>
    intro page acc M hM hrel htot hlen hfuel
    have htot0 := htot 0
    have hlen0 := hlen 0
    rw [Nat.add_zero] at htot0 hlen0
    rw [Nat.zero_mul, Nat.sub_zero] at hlen0
    rw [getAllLoop]
    dsimp only
    rw [htot0, i32AsUsize_ofNat hN]
    by_cases hc : M ≤ P
    · have hmin : min P M = M := Nat.min_eq_right hc
      have hcond : (acc ++ (pages page).items).length = N := by
        rw [List.length_append, hlen0, hmin]; exact hrel
      rw [if_pos hcond]
      have hk : ceilDiv M P = 1 := ceilDiv_eq_one hM hc
      rw [hk]
      constructor
      · simp [pagesConcat]
      · simpa [pagesConcat] using hcond
    · push_neg at hc
      have hmin : min P M = P := Nat.min_eq_left (le_of_lt hc)
      have hcond : ¬ (acc ++ (pages page).items).length = N := by
        rw [List.length_append, hlen0, hmin]; omega
      rw [if_neg hcond]
      have hM' : 0 < M - P := by omega
      have hrel' : (acc ++ (pages page).items).length + (M - P) = N := by
        rw [List.length_append, hlen0, hmin]; omega
      have htot' : ∀ j : Nat, (pages (page + 1 + j)).total_items = (N : Int) := by
        intro j
        have := htot (j + 1)
        rwa [show page + (j + 1) = page + 1 + j by omega] at this
      have hlen' : ∀ j : Nat, (pages (page + 1 + j)).items.length = min P (M - P - j * P) := by
        intro j
        have := hlen (j + 1)
        rw [show page + (j + 1) = page + 1 + j by omega, Nat.succ_mul] at this
        rw [this]
        congr 1
        omega
      have hkstep : ceilDiv M P = ceilDiv (M - P) P + 1 := ceilDiv_sub hP hc
      have hfuel' : ceilDiv (M - P) P ≤ fuel := by omega
      obtain ⟨hEq, hLen⟩ := ih (page + 1) (acc ++ (pages page).items) (M - P) hM' hrel'
        htot' hlen' hfuel'
      rw [hkstep]
      constructor
      · simp only [hEq, pagesConcat, List.append_assoc]
      · rw [show pagesConcat (fun i => (pages i).items) page (ceilDiv (M - P) P + 1)
            = (pages page).items ++ pagesConcat (fun i => (pages i).items) (page + 1)
              (ceilDiv (M - P) P) from rfl]
        rw [← List.append_assoc]
        exact hLen

/-- C1, counterexample: for the server-reported total N = 0 with page size
P = 1000 and consistent pages (every page carries min(1000, 0) = 0 items and
reports total_items = 0), get_all still issues exactly one page fetch, whereas
the claim demands ceil(0/1000) = 0 fetches. -/
theorem C1_counterexample_zero_total :
    (RecordsManager.get_all (E := ListCallError)
        (⟨⟨"http://localhost:8090", none, NoAuth.mk⟩, "posts"⟩ : RecordsManager NoAuth)
        (fun _ => some (.ok (⟨1, 1000, 0, []⟩ : RecordList RecordData))) 5).2 = 1
      ∧ ceilDiv 0 1000 = 0
      ∧ (1 : Nat) ≠ ceilDiv 0 1000 := by
  refine ⟨rfl, rfl, ?_⟩
  decide

/-- C1, amended: for a server-reported total of N items and fetch page size P,
with the server returning consistent pages (page i carries min(P, N - (i-1)*P)
items and always reports total_items = N), get_all issues exactly
max(1, ceil(N/P)) page fetches (the loop body always runs at least once, so a
total of zero still costs one fetch) and returns the pages' items concatenated
in server-returned page order, with total length N. The source fixes P = 1000;
the theorem holds for every positive P. -/
theorem C1_get_all_page_fetches {A E T : Type} (m : RecordsManager A)
    (pages : Nat → RecordList T) (N P fuel : Nat)
    (hN : N < 2 ^ 31) (hP : 0 < P)
    (htot : ∀ i : Nat, 1 ≤ i → (pages i).total_items = (N : Int))
    (hlen : ∀ i : Nat, 1 ≤ i → (pages i).items.length = min P (N - (i - 1) * P))
    (hfuel : max 1 (ceilDiv N P) ≤ fuel) :
    RecordsManager.get_all (E := E) m (fun i => some (.ok (pages i))) fuel
        = (.ok (pagesConcat (fun i => (pages i).items) 1 (max 1 (ceilDiv N P))),
           max 1 (ceilDiv N P))
      ∧ (pagesConcat (fun i => (pages i).items) 1 (max 1 (ceilDiv N P))).length = N := by
  rcases Nat.eq_zero_or_pos N with hN0 | hNpos
  · subst hN0
    have hk : ceilDiv 0 P = 0 := by
      rw [ceilDiv]
      exact Nat.div_eq_of_lt (by omega)
    rw [hk]
    have hone : max 1 0 = 1 := rfl
    rw [hone]
    obtain ⟨f, rfl⟩ : ∃ f, fuel = f + 1 := ⟨fuel - 1, by omega⟩
    have hitems : (pages 1).items = [] := by
      have := hlen 1 (by omega)
      simpa using this
    rw [RecordsManager.get_all, getAllLoop]
    dsimp only
    rw [htot 1 (by omega), hitems]
    constructor
    · simp [pagesConcat, hitems, i32AsUsize]
    · simp [pagesConcat, hitems]
  · have hK : 0 < ceilDiv N P := ceilDiv_pos hNpos hP
    have hmax : max 1 (ceilDiv N P) = ceilDiv N P := by omega
    rw [hmax] at hfuel ⊢
    have h := getAllLoop_consistent (E := E) pages (by omega) hP fuel 1 [] N hNpos
      (by simp)
      (fun j => htot (1 + j) (by omega))
      (fun j => by
        have := hlen (1 + j) (by omega)
        simpa using this)
      hfuel
    rw [RecordsManager.get_all]
    simpa using h

/-- C1, witness: a consistent server with N = 5 items and P = 2 per page; the
amended theorem yields exactly 3 = max(1, ceil(5/2)) fetches and all 5 items
in page order. -/
theorem C1_get_all_page_fetches_witness :
    RecordsManager.get_all (E := ListCallError)
        (⟨⟨"http://localhost:8090", none, NoAuth.mk⟩, "posts"⟩ : RecordsManager NoAuth)
        (fun i => some (.ok (⟨(i : Int), 2, 5,
          List.replicate (min 2 (5 - (i - 1) * 2)) (⟨"", ""⟩ : RecordData)⟩
            : RecordList RecordData))) 3
        = (.ok (pagesConcat
            (fun i => ((⟨(i : Int), 2, 5,
              List.replicate (min 2 (5 - (i - 1) * 2)) (⟨"", ""⟩ : RecordData)⟩
                : RecordList RecordData)).items) 1 (max 1 (ceilDiv 5 2))),
           max 1 (ceilDiv 5 2))
      ∧ (pagesConcat
          (fun i => ((⟨(i : Int), 2, 5,
            List.replicate (min 2 (5 - (i - 1) * 2)) (⟨"", ""⟩ : RecordData)⟩
              : RecordList RecordData)).items) 1 (max 1 (ceilDiv 5 2))).length = 5 :=
  C1_get_all_page_fetches _ _ 5 2 3 (by norm_num) (by norm_num)
    (fun _ _ => rfl) (fun _ _ => by simp) (by decide)

/-- C3: for every authenticate call whose response has status exactly 200 and
whose body decodes as a token object, the result is a new client value in the
Authenticated typestate whose auth_token is that token and whose base_url is
the original's; the embedding is pure and the Rust source takes `&self` and
clones, so the original anonymous client value is left unchanged. -/
theorem C3_auth_success_typestate (c : Client NoAuth) (resp : Response) (token : String)
    (hs : resp.status = 200)
    (hd : parseThenDecodeAuthSuccessPlain resp.body = .ok token) :
    auth_with_password c (.ok resp)
      = .ok { base_url := c.base_url, auth_token := some token, state := Auth.mk } := by
  simp [auth_with_password, hs, hd]

/-- C3, witness: a 200 response with body token abc authenticates a concrete
anonymous client into an authenticated one carrying that token. -/
theorem C3_auth_success_typestate_witness :
    auth_with_password ⟨"http://localhost:8090", none, NoAuth.mk⟩
        (.ok ⟨200, "\x7b\"token\":\"abc\"\x7d"⟩)
      = .ok { base_url := "http://localhost:8090", auth_token := some "abc",
              state := Auth.mk } :=
  C3_auth_success_typestate ⟨"http://localhost:8090", none, NoAuth.mk⟩
    ⟨200, "\x7b\"token\":\"abc\"\x7d"⟩ "abc" rfl rfl

/-- C4: every outbound request built by the four Httpc constructors (GET,
POST, PATCH, DELETE — the single transport funnel used by all resources)
carries the header `Authorization: token` with the raw stored token exactly
when the client holds one, and no Authorization header otherwise. -/
theorem C4_authorization_header {A : Type} (c : Client A) (url : String)
    (qp : Option (List (String × String))) (bodyc : String) :
    ((Httpc.get c url qp).headers.filter (fun h => h.1 == "Authorization")
        = (match c.auth_token with
           | some t => [("Authorization", t)]
           | none => []))
      ∧ ((Httpc.post c url bodyc).headers.filter (fun h => h.1 == "Authorization")
        = (match c.auth_token with
           | some t => [("Authorization", t)]
           | none => []))
      ∧ ((Httpc.delete c url).headers.filter (fun h => h.1 == "Authorization")
        = (match c.auth_token with
           | some t => [("Authorization", t)]
           | none => []))
      ∧ ((Httpc.patch c url bodyc).headers.filter (fun h => h.1 == "Authorization")
        = (match c.auth_token with
           | some t => [("Authorization", t)]
           | none => [])) := by
  obtain ⟨bu, tok, st⟩ := c
  cases tok <;>
    exact ⟨rfl, rfl, rfl, rfl⟩

/-- C7: a destroy call succeeds exactly when the transport delivered a
response with status 204; every other status — including other 2xx codes such
as 200 — and every transport failure yields an error. -/
theorem C7_destroy_success_iff_204 {A : Type} (b : RecordDestroyRequestBuilder A)
    (tr : Except String Response) :
    RecordDestroyRequestBuilder.call b tr = .ok ()
      ↔ ∃ r : Response, tr = .ok r ∧ r.status = 204 := by
  cases tr with
  | error e => simp [RecordDestroyRequestBuilder.call]
  | ok r =>
    by_cases h : r.status = 204 <;>
      simp [RecordDestroyRequestBuilder.call, h]

lemma byteLenAux_takeBytesAux :
    ∀ (l : List Char) (n : Nat) (r : List Char),
      takeBytesAux l n = some r → byteLenAux r = n := by
  intro l
  induction l with
  | nil =>
    intro n r h
    cases n with
    | zero =>
      rw [takeBytesAux] at h
      cases h
      rfl
    | succ m => rw [takeBytesAux] at h; cases h
  | cons c cs ih =>
    intro n r h
    cases n with
    | zero =>
      rw [takeBytesAux] at h
      cases h
      rfl
    | succ m =>
      rw [takeBytesAux] at h
      by_cases hw : m + 1 < c.utf8Size
      · rw [if_pos hw] at h; cases h
      · rw [if_neg hw] at h
        cases hr : takeBytesAux cs (m + 1 - c.utf8Size) with
        | none => rw [hr] at h; cases h
        | some r' =>
          rw [hr] at h
          cases h
          have hlen := ih _ _ hr
          rw [byteLenAux, hlen]
          omega

lemma bodySnippet_le {body snip : String} (h : bodySnippet body = some snip) :
    byteLenStr snip ≤ 2000 := by
  rw [bodySnippet] at h
  cases hr : takeBytesAux body.data (min 2000 (byteLenStr body)) with
  | none => rw [hr] at h; cases h
  | some cs =>
    rw [hr] at h
    cases h
    have := byteLenAux_takeBytesAux _ _ _ hr
    have hle : min 2000 (byteLenStr body) ≤ 2000 := Nat.min_le_left _ _
    calc byteLenStr (String.mk cs) = byteLenAux cs := rfl
      _ = min 2000 (byteLenStr body) := this
      _ ≤ 2000 := hle

/-- C8: for a single-record view call with a non-2xx response whose snippet
computes, a 404 yields NotFound carrying the collection name, the requested
identifier and the body snippet, and any other non-2xx status yields Http
carrying the status, the request URL and the snippet; the snippet is at most
2000 bytes. -/
theorem C8_view_notfound_http {A : Type} (b : RecordViewRequestBuilder A) (resp : Response)
    (snip : String)
    (hs : statusIsSuccess resp.status = false)
    (hsnip : bodySnippet resp.body = some snip) :
    (resp.status = 404 →
        b.call (.ok resp)
          = some (.error (.NotFound b.collection_name b.identifier snip)))
      ∧ (resp.status ≠ 404 →
        b.call (.ok resp)
          = some (.error (.Http resp.status
            (b.client.base_url ++ "/api/collections/" ++ b.collection_name ++ "/records/" ++
              b.identifier) snip)))
      ∧ byteLenStr snip ≤ 2000 := by
  refine ⟨?_, ?_, bodySnippet_le hsnip⟩
  · intro h404
    rw [h404] at hs
    simp [RecordViewRequestBuilder.call, hs, hsnip, h404]
  · intro h404
    simp [RecordViewRequestBuilder.call, hs, hsnip, h404]

/-- C8, witness: status 404 with body message not found yields NotFound with
collection posts, identifier xyz, and the whole (short) body as snippet. -/
theorem C8_view_notfound_http_witness :
    RecordViewRequestBuilder.call
        (⟨⟨"http://localhost:8090", none, NoAuth.mk⟩, "posts", "xyz"⟩
          : RecordViewRequestBuilder NoAuth)
        (.ok ⟨404, "\x7b\"message\":\"not found\"\x7d"⟩)
      = some (.error (.NotFound "posts" "xyz" "\x7b\"message\":\"not found\"\x7d"))
      ∧ byteLenStr "\x7b\"message\":\"not found\"\x7d" ≤ 2000 :=
  ⟨(C8_view_notfound_http
      (⟨⟨"http://localhost:8090", none, NoAuth.mk⟩, "posts", "xyz"⟩
        : RecordViewRequestBuilder NoAuth)
      ⟨404, "\x7b\"message\":\"not found\"\x7d"⟩ "\x7b\"message\":\"not found\"\x7d"
      rfl rfl).1 rfl,
   (C8_view_notfound_http
      (⟨⟨"http://localhost:8090", none, NoAuth.mk⟩, "posts", "xyz"⟩
        : RecordViewRequestBuilder NoAuth)
      ⟨404, "\x7b\"message\":\"not found\"\x7d"⟩ "\x7b\"message\":\"not found\"\x7d"
      rfl rfl).2.2⟩

/-- C9: every setter of every list-style builder (records list, collections
list, logs list, log statistics — each setter the source defines) returns a
new builder in which exactly the targeted field is overridden with the given
value and every other field equals the original's; the embedding is pure and
the Rust setters clone, so the original builder is left unchanged. -/
theorem C9_setter_frame {A : Type} (b : RecordsListRequestBuilder A)
    (cb : CollectionListRequestBuilder A) (lb : LogListRequestBuilder A)
    (sb : LogStatisticsRequestBuilder A) (f so ex : String) (p pp : Int) :
    (b.setFilter f
        = ⟨b.client, b.collection_name, some f, b.sort, b.expand, b.page, b.per_page⟩)
      ∧ (b.setSort so
        = ⟨b.client, b.collection_name, b.filter, some so, b.expand, b.page, b.per_page⟩)
      ∧ (b.setExpand ex
        = ⟨b.client, b.collection_name, b.filter, b.sort, some ex, b.page, b.per_page⟩)
      ∧ (b.setPage p
        = ⟨b.client, b.collection_name, b.filter, b.sort, b.expand, p, b.per_page⟩)
      ∧ (b.setPerPage pp
        = ⟨b.client, b.collection_name, b.filter, b.sort, b.expand, b.page, pp⟩)
      ∧ (cb.setFilter f = ⟨cb.client, some f, cb.sort, cb.expand, cb.per_page, cb.page⟩)
      ∧ (cb.setSort so = ⟨cb.client, cb.filter, some so, cb.expand, cb.per_page, cb.page⟩)
      ∧ (cb.setExpand ex = ⟨cb.client, cb.filter, cb.sort, some ex, cb.per_page, cb.page⟩)
      ∧ (cb.setPage p = ⟨cb.client, cb.filter, cb.sort, cb.expand, cb.per_page, p⟩)
      ∧ (cb.setPerPage pp = ⟨cb.client, cb.filter, cb.sort, cb.expand, pp, cb.page⟩)
      ∧ (lb.setFilter f = ⟨lb.client, lb.page, lb.per_page, lb.sort, some f⟩)
      ∧ (lb.setSort so = ⟨lb.client, lb.page, lb.per_page, some so, lb.filter⟩)
      ∧ (lb.setPage p = ⟨lb.client, p, lb.per_page, lb.sort, lb.filter⟩)
      ∧ (lb.setPerPage pp = ⟨lb.client, lb.page, pp, lb.sort, lb.filter⟩)
      ∧ (sb.setFilter f = ⟨sb.client, some f⟩) :=
  ⟨rfl, rfl, rfl, rfl, rfl, rfl, rfl, rfl, rfl, rfl, rfl, rfl, rfl, rfl, rfl⟩

/-- Substring test on the underlying character lists: does the second list
occur contiguously inside the first? Used to state that a plain decode
message does not contain a structural path. -/
def listStartsWith : List Char → List Char → Bool
  | _, [] => true
  | [], _ :: _ => false
  | c :: cs, p :: ps => c = p && listStartsWith cs ps

/-- Contiguous-occurrence test driven by `listStartsWith`. -/
def listContainsSub : List Char → List Char → Bool
  | [], pat => listStartsWith [] pat
  | c :: cs, pat => listStartsWith (c :: cs) pat || listContainsSub cs pat

/-- A 200 list body in which item index 2's `created` field is a boolean
instead of a timestamp string — the spec's decode-path example, as served by
the records list endpoint. -/
def badListBody : String :=
  "\x7b\"page\":1,\"perPage\":30,\"totalItems\":3,\"items\":[\x7b\"id\":\"r1\",\"created\":\"2024-01-01 10:00:00\"\x7d,\x7b\"id\":\"r2\",\"created\":\"2024-01-02 10:00:00\"\x7d,\x7b\"id\":\"r3\",\"created\":true\x7d]\x7d"

/-- The analogous 200 collections list body in which item index 2's `created`
field is a boolean. -/
def badCollBody : String :=
  "\x7b\"page\":1,\"perPage\":30,\"totalItems\":3,\"items\":[\x7b\"id\":\"c1\",\"created\":\"2024-01-01T00:00:00Z\",\"type\":\"base\",\"updated\":\"2024-01-01T00:00:00Z\",\"name\":\"a\",\"schema\":[]\x7d,\x7b\"id\":\"c2\",\"created\":\"2024-01-01T00:00:00Z\",\"type\":\"base\",\"updated\":\"2024-01-01T00:00:00Z\",\"name\":\"b\",\"schema\":[]\x7d,\x7b\"id\":\"c3\",\"created\":true,\"type\":\"base\",\"updated\":\"2024-01-01T00:00:00Z\",\"name\":\"c\",\"schema\":[]\x7d]\x7d"

/-- C2, counterexample: the collections list call — a list operation, and one
of the claim's own cited sources — decodes with reqwest's plain `json()`
rather than serde_path_to_error. On a 200 response whose `items[2].created`
is a boolean its error carries only the serde description; the structural
path `items[2].created` occurs nowhere in it, refuting the claim's
quantification over every list operation. -/
theorem C2_counterexample_collections_no_path :
    CollectionListRequestBuilder.call
        (⟨⟨"http://localhost:8090", none, NoAuth.mk⟩, none, none, none, 100, 1⟩
          : CollectionListRequestBuilder NoAuth)
        (.ok ⟨200, badCollBody⟩)
      = .error (.decode "invalid type: boolean, expected a string")
      ∧ listContainsSub "invalid type: boolean, expected a string".data
          "items[2].created".data = false :=
  ⟨rfl, rfl⟩

/-- C2, amended: for the records list and single-record view operations (the
two that route decoding through serde_path_to_error; the collections and logs
operations decode without path tracking), a 2xx response whose body fails to
decode yields an error carrying exactly the structural path at which decoding
diverged, the underlying decode failure description, and a body snippet of at
most 2000 bytes (provided the snippet slice lands on a character boundary). -/
theorem C2_decode_path_precision {A : Type} (bl : RecordsListRequestBuilder A)
    (bv : RecordViewRequestBuilder A) (resp : Response) (snip p d : String)
    (hs : statusIsSuccess resp.status = true)
    (hsnip : bodySnippet resp.body = some snip) :
    (parseThenDecodeRL resp.body = .error (p, d) →
        bl.call (.ok resp) = some (.error (.decode p d snip)))
      ∧ (parseThenDecodeRecord resp.body = .error (p, d) →
        bv.call (.ok resp) = some (.error (.Decode p d snip)))
      ∧ byteLenStr snip ≤ 2000 := by
  refine ⟨?_, ?_, bodySnippet_le hsnip⟩ <;> intro hd <;>
    simp [RecordsListRequestBuilder.call, RecordViewRequestBuilder.call, hs, hsnip, hd]

/-- C2, witness: on the example body whose item index 2 has a boolean
`created`, the records list call reports the decode error at literally
`items[2].created`, with the serde description and the whole (short) body as
the snippet. -/
theorem C2_decode_path_precision_witness :
    RecordsListRequestBuilder.call
        (⟨⟨"http://localhost:8090", none, NoAuth.mk⟩, "posts", none, none, none, 1, 100⟩
          : RecordsListRequestBuilder NoAuth)
        (.ok ⟨200, badListBody⟩)
      = some (.error (.decode "items[2].created"
          "invalid type: boolean, expected a string" badListBody)) :=
  (C2_decode_path_precision
      (⟨⟨"http://localhost:8090", none, NoAuth.mk⟩, "posts", none, none, none, 1, 100⟩
        : RecordsListRequestBuilder NoAuth)
      (⟨⟨"http://localhost:8090", none, NoAuth.mk⟩, "posts", "xyz"⟩
        : RecordViewRequestBuilder NoAuth)
      ⟨200, badListBody⟩ badListBody "items[2].created"
      "invalid type: boolean, expected a string" rfl rfl).1 rfl

/-- C5, counterexample: the log statistics call never inspects the status
code, so a status 500 response whose body is the empty JSON array decodes
successfully and is delivered to the caller as a success value, refuting the
claim's quantification over every operation in the pipeline. -/
theorem C5_counterexample_stats_ignores_status :
    LogStatisticsRequestBuilder.call
        (⟨⟨"http://localhost:8090", none, NoAuth.mk⟩, none⟩
          : LogStatisticsRequestBuilder NoAuth)
        (.ok ⟨500, "[]"⟩)
      = .ok [] :=
  rfl

/-- C5, amended: the operations that inspect the status — records list,
record view, record destroy, and authenticate — never deliver a success value
on a non-2xx response; the remaining operations (record update, collections
list, log statistics, and likewise collection view, log list/view, record
create) never inspect the status at all, so their outcome is the same for any
two statuses and a non-2xx response can succeed whenever its body decodes. -/
theorem C5_non2xx_never_success {A T : Type} (bl : RecordsListRequestBuilder A)
    (bv : RecordViewRequestBuilder A) (bd : RecordDestroyRequestBuilder A)
    (bu : RecordUpdateRequestBuilder A T) (bc : CollectionListRequestBuilder A)
    (bs : LogStatisticsRequestBuilder A) (c : Client NoAuth)
    (s s' : Nat) (body : String)
    (hs : statusIsSuccess s = false) :
    (∀ v, bl.call (.ok ⟨s, body⟩) ≠ some (.ok v))
      ∧ (∀ v, bv.call (.ok ⟨s, body⟩) ≠ some (.ok v))
      ∧ bd.call (.ok ⟨s, body⟩) ≠ .ok ()
      ∧ (∀ cl, auth_with_password c (.ok ⟨s, body⟩) ≠ .ok cl)
      ∧ bu.call (.ok ⟨s, body⟩) = bu.call (.ok ⟨s', body⟩)
      ∧ bc.call (.ok ⟨s, body⟩) = bc.call (.ok ⟨s', body⟩)
      ∧ bs.call (.ok ⟨s, body⟩) = bs.call (.ok ⟨s', body⟩) := by
  have h204 : s ≠ 204 := by
    intro h
    rw [h] at hs
    exact absurd hs (by decide)
  have h200 : s ≠ 200 := by
    intro h
    rw [h] at hs
    exact absurd hs (by decide)
  refine ⟨?_, ?_, ?_, ?_, rfl, rfl, rfl⟩
  · intro v
    simp only [RecordsListRequestBuilder.call, hs]
    cases bodySnippet body <;> simp
  · intro v
    simp only [RecordViewRequestBuilder.call, hs]
    cases bodySnippet body <;> [simp; skip]
    by_cases h4 : s = 404 <;> simp [h4]
  · simp [RecordDestroyRequestBuilder.call, h204]
  · intro cl
    simp only [auth_with_password]
    rw [if_neg h200]
    by_cases h4 : 400 ≤ s ∧ s ≤ 499
    · rw [if_pos h4]
      cases parseThenDecodeErrorRespPlain body <;> simp
    · rw [if_neg h4]
      simp

/-- C5, witness: at status 500 (with statuses 500 versus 200 for the
status-blind operations), concrete builders exhibit every conjunct. -/
theorem C5_non2xx_never_success_witness :
    RecordsListRequestBuilder.call
        (⟨⟨"http://localhost:8090", none, NoAuth.mk⟩, "posts", none, none, none, 1, 100⟩
          : RecordsListRequestBuilder NoAuth)
        (.ok ⟨500, "boom"⟩) ≠ some (.ok ⟨1, 100, 0, []⟩)
      ∧ RecordDestroyRequestBuilder.call
          (⟨"xyz", ⟨"http://localhost:8090", none, NoAuth.mk⟩, "posts"⟩
            : RecordDestroyRequestBuilder NoAuth)
          (.ok ⟨500, "boom"⟩) ≠ .ok ()
      ∧ LogStatisticsRequestBuilder.call
          (⟨⟨"http://localhost:8090", none, NoAuth.mk⟩, none⟩
            : LogStatisticsRequestBuilder NoAuth)
          (.ok ⟨500, "boom"⟩)
        = LogStatisticsRequestBuilder.call
            (⟨⟨"http://localhost:8090", none, NoAuth.mk⟩, none⟩
              : LogStatisticsRequestBuilder NoAuth)
            (.ok ⟨200, "boom"⟩) :=
  ⟨(C5_non2xx_never_success
      (⟨⟨"http://localhost:8090", none, NoAuth.mk⟩, "posts", none, none, none, 1, 100⟩
        : RecordsListRequestBuilder NoAuth)
      (⟨⟨"http://localhost:8090", none, NoAuth.mk⟩, "posts", "xyz"⟩
        : RecordViewRequestBuilder NoAuth)
      (⟨"xyz", ⟨"http://localhost:8090", none, NoAuth.mk⟩, "posts"⟩
        : RecordDestroyRequestBuilder NoAuth)
      (⟨"rec", "posts", ⟨"http://localhost:8090", none, NoAuth.mk⟩, "xyz"⟩
        : RecordUpdateRequestBuilder NoAuth String)
      (⟨⟨"http://localhost:8090", none, NoAuth.mk⟩, none, none, none, 100, 1⟩
        : CollectionListRequestBuilder NoAuth)
      (⟨⟨"http://localhost:8090", none, NoAuth.mk⟩, none⟩
        : LogStatisticsRequestBuilder NoAuth)
      ⟨"http://localhost:8090", none, NoAuth.mk⟩ 500 200 "boom" rfl).1 _,
   (C5_non2xx_never_success
      (⟨⟨"http://localhost:8090", none, NoAuth.mk⟩, "posts", none, none, none, 1, 100⟩
        : RecordsListRequestBuilder NoAuth)
      (⟨⟨"http://localhost:8090", none, NoAuth.mk⟩, "posts", "xyz"⟩
        : RecordViewRequestBuilder NoAuth)
      (⟨"xyz", ⟨"http://localhost:8090", none, NoAuth.mk⟩, "posts"⟩
        : RecordDestroyRequestBuilder NoAuth)
      (⟨"rec", "posts", ⟨"http://localhost:8090", none, NoAuth.mk⟩, "xyz"⟩
        : RecordUpdateRequestBuilder NoAuth String)
      (⟨⟨"http://localhost:8090", none, NoAuth.mk⟩, none, none, none, 100, 1⟩
        : CollectionListRequestBuilder NoAuth)
      (⟨⟨"http://localhost:8090", none, NoAuth.mk⟩, none⟩
        : LogStatisticsRequestBuilder NoAuth)
      ⟨"http://localhost:8090", none, NoAuth.mk⟩ 500 200 "boom" rfl).2.2.1,
   (C5_non2xx_never_success
      (⟨⟨"http://localhost:8090", none, NoAuth.mk⟩, "posts", none, none, none, 1, 100⟩
        : RecordsListRequestBuilder NoAuth)
      (⟨⟨"http://localhost:8090", none, NoAuth.mk⟩, "posts", "xyz"⟩
        : RecordViewRequestBuilder NoAuth)
      (⟨"xyz", ⟨"http://localhost:8090", none, NoAuth.mk⟩, "posts"⟩
        : RecordDestroyRequestBuilder NoAuth)
      (⟨"rec", "posts", ⟨"http://localhost:8090", none, NoAuth.mk⟩, "xyz"⟩
        : RecordUpdateRequestBuilder NoAuth String)
      (⟨⟨"http://localhost:8090", none, NoAuth.mk⟩, none, none, none, 100, 1⟩
        : CollectionListRequestBuilder NoAuth)
      (⟨⟨"http://localhost:8090", none, NoAuth.mk⟩, none⟩
        : LogStatisticsRequestBuilder NoAuth)
      ⟨"http://localhost:8090", none, NoAuth.mk⟩ 500 200 "boom" rfl).2.2.2.2.2.2⟩

/-- C6, counterexample: a 400 response whose body does not decode as an
`ErrorResponse` (here, not even JSON) yields `AuthError::Other` through the
`?` conversion on the failed `json()` call, refuting the claim that every
4xx authenticate response yields `AuthError::Validation` and that only
non-2xx statuses outside 4xx, transport failures, or unparseable success
bodies yield `Other`. -/
theorem C6_counterexample_4xx_undecodable :
    auth_with_password ⟨"http://localhost:8090", none, NoAuth.mk⟩ (.ok ⟨400, "oops"⟩)
      = .error (.Other "syntax error") :=
  rfl

/-- C6, amended: for an authenticate response in the 4xx range, a body that
decodes as an `ErrorResponse` yields `AuthError::Validation` carrying exactly
that status/message/per-field data, while a 4xx body that fails to decode as
`ErrorResponse` also yields `AuthError::Other` (carrying the decode failure
description). -/
theorem C6_auth_4xx_validation (c : Client NoAuth) (resp : Response)
    (er : ErrorResponse) (d : String)
    (h4 : 400 ≤ resp.status) (h4' : resp.status ≤ 499) :
    (parseThenDecodeErrorRespPlain resp.body = .ok er →
        auth_with_password c (.ok resp) = .error (.Validation er))
      ∧ (parseThenDecodeErrorRespPlain resp.body = .error d →
        auth_with_password c (.ok resp) = .error (.Other d)) := by
  have h200 : resp.status ≠ 200 := by omega
  constructor <;> intro hd <;>
    · simp only [auth_with_password]
      rw [if_neg h200, if_pos ⟨h4, h4'⟩, hd]

/-- C6, witness: a 400 response with a structured validation body yields
`Validation` carrying the same field, code and message data. -/
theorem C6_auth_4xx_validation_witness :
    auth_with_password ⟨"http://localhost:8090", none, NoAuth.mk⟩
        (.ok ⟨400, "\x7b\"data\":\x7b\"email\":\x7b\"code\":\"validation_required\",\"message\":\"Missing required value.\"\x7d\x7d,\"message\":\"Failed to authenticate.\",\"status\":400\x7d"⟩)
      = .error (.Validation
          ⟨[("email", ⟨"validation_required", "Missing required value."⟩)],
           "Failed to authenticate.", 400⟩) :=
  (C6_auth_4xx_validation ⟨"http://localhost:8090", none, NoAuth.mk⟩
      ⟨400, "\x7b\"data\":\x7b\"email\":\x7b\"code\":\"validation_required\",\"message\":\"Missing required value.\"\x7d\x7d,\"message\":\"Failed to authenticate.\",\"status\":400\x7d"⟩
      ⟨[("email", ⟨"validation_required", "Missing required value."⟩)],
       "Failed to authenticate.", 400⟩
      "" (by decide) (by decide)).1 rfl

lemma byteLenAux_append (l₁ l₂ : List Char) :
    byteLenAux (l₁ ++ l₂) = byteLenAux l₁ + byteLenAux l₂ := by
  induction l₁ with
  | nil => simp [byteLenAux]
  | cons c cs ih => simp [byteLenAux, ih]; omega

lemma byteLenAux_replicate (n : Nat) (c : Char) :
    byteLenAux (List.replicate n c) = n * c.utf8Size := by
  induction n with
  | zero => simp [byteLenAux]
  | succ m ih => rw [List.replicate_succ, byteLenAux, ih, Nat.succ_mul]; omega

lemma takeBytesAux_replicate_a :
    ∀ (k m : Nat) (rest : List Char), k ≤ m →
      takeBytesAux (List.replicate k 'a' ++ rest) m
        = (takeBytesAux rest (m - k)).map (fun r => List.replicate k 'a' ++ r) := by
  intro k
  induction k with
  | zero =>
    intro m rest _
    simp
  | succ k ih =>
    intro m rest hkm
    obtain ⟨m', rfl⟩ : ∃ m', m = m' + 1 := ⟨m - 1, by omega⟩
    rw [List.replicate_succ, List.cons_append, takeBytesAux]
    have hsize : ('a' : Char).utf8Size = 1 := rfl
    rw [hsize, if_neg (by omega)]
    have hrec := ih m' rest (by omega)
    rw [show m' + 1 - 1 = m' from rfl, hrec,
      show m' + 1 - (k + 1) = m' - k by omega]
    cases takeBytesAux rest (m' - k) <;> simp [List.replicate_succ]

/-- C10: computing the diagnostic body snippet is not total — the source
slices the body at byte offset min(2000, len), so for any response body
longer than 2000 bytes whose byte offset 2000 falls inside a multi-byte UTF-8
character (no character boundary there), the records list call and the record
view call panic on their error paths (modelled as `none`) instead of
returning a truncated snippet or an error. -/
theorem C10_snippet_slice_panics {A : Type} (bl : RecordsListRequestBuilder A)
    (bv : RecordViewRequestBuilder A) (s : Nat) (body : String)
    (hlen : 2000 < byteLenStr body)
    (hb : takeBytesAux body.data 2000 = none)
    (hs : statusIsSuccess s = false) :
    bl.call (.ok ⟨s, body⟩) = none ∧ bv.call (.ok ⟨s, body⟩) = none := by
  have hsnip : bodySnippet body = none := by
    rw [bodySnippet, Nat.min_eq_left (le_of_lt hlen), hb]
  constructor <;>
    simp [RecordsListRequestBuilder.call, RecordViewRequestBuilder.call, hs, hsnip]

/-- A 2001-byte body — 1999 one-byte characters followed by one two-byte
character — whose byte offset 2000 falls inside the final character. -/
def panicBody : String :=
  String.mk (List.replicate 1999 'a' ++ ['é'])

/-- C10, witness: the concrete 2001-byte body exceeds 2000 bytes, byte offset
2000 is not a character boundary, and both calls panic on a 500 response
carrying it. -/
theorem C10_snippet_slice_panics_witness :
    2000 < byteLenStr panicBody
      ∧ takeBytesAux panicBody.data 2000 = none
      ∧ RecordsListRequestBuilder.call
          (⟨⟨"http://localhost:8090", none, NoAuth.mk⟩, "posts", none, none, none, 1, 100⟩
            : RecordsListRequestBuilder NoAuth)
          (.ok ⟨500, panicBody⟩) = none
      ∧ RecordViewRequestBuilder.call
          (⟨⟨"http://localhost:8090", none, NoAuth.mk⟩, "posts", "xyz"⟩
            : RecordViewRequestBuilder NoAuth)
          (.ok ⟨500, panicBody⟩) = none := by
  have hlen : byteLenStr panicBody = 2001 := by
    rw [panicBody]
    show byteLenAux (List.replicate 1999 'a' ++ ['é']) = 2001
    rw [byteLenAux_append, byteLenAux_replicate]
    rfl
  have hb : takeBytesAux panicBody.data 2000 = none := by
    rw [panicBody]
    show takeBytesAux (List.replicate 1999 'a' ++ ['é']) 2000 = none
    rw [takeBytesAux_replicate_a 1999 2000 ['é'] (by omega)]
    rfl
  have h := C10_snippet_slice_panics
    (⟨⟨"http://localhost:8090", none, NoAuth.mk⟩, "posts", none, none, none, 1, 100⟩
      : RecordsListRequestBuilder NoAuth)
    (⟨⟨"http://localhost:8090", none, NoAuth.mk⟩, "posts", "xyz"⟩
      : RecordViewRequestBuilder NoAuth)
    500 panicBody (by omega) hb rfl
  exact ⟨by omega, hb, h.1, h.2⟩

end PB
